import Mathlib

/-!
Shallow embedding of `aclient.py` (repository slavaprotogor/aclient), a minimal
asynchronous HTTP request batching client, together with theorems settling the
frozen claims about it.

Python dicts of string keys and values are modelled as association lists in
insertion order (`Headers`), with `dictSet`/`dictUpdate`/`dictGet` mirroring
`d[k] = v`, `d.update(e)` and key lookup.  Bytes are `List Nat`.  The standard
library calls `json.loads` and `bytes.decode` are external to the repository and
are passed in as function parameters.  Coroutines never appear: each queued task
is represented by the `Result` value its coroutine resolves to, and the event
loop's completion interleaving is an explicit permutation of task indices.
-/

namespace AClientModel

/-- A Python dict with string keys and values: association list in insertion
order (a real Python dict has pairwise distinct keys). -/
abbrev Headers := List (String × String)

/-- Python `d[k] = v`: replace the value in place if the key is present
(position kept), otherwise append the new pair at the end.  A Python dict has
pairwise distinct keys, so replacing the first occurrence is exact. -/
def dictSet : Headers → String → String → Headers
  | [], k, v => [(k, v)]
  | p :: t, k, v => if p.1 == k then (k, v) :: t else p :: dictSet t k v

/-- Python `d.update(e)`: set every pair of `e`, in order, into `d`. -/
def dictUpdate (d e : Headers) : Headers :=
  e.foldl (fun acc p => dictSet acc p.1 p.2) d

/-- Python key lookup `d[k]` / `d.get(k)` (first matching pair). -/
def dictGet (d : Headers) (k : String) : Option String :=
  (d.find? (fun p => p.1 == k)).map (fun p => p.2)

/-- The keys of a dict, in order. -/
def dictKeys (d : Headers) : List String :=
  d.map Prod.fst

theorem dictGet_cons (p : String × String) (t : Headers) (k : String) :
    dictGet (p :: t) k = if p.1 == k then some p.2 else dictGet t k := by
  by_cases h : p.1 == k
  · simp [dictGet, List.find?_cons_of_pos _ h, h]
  · simp [dictGet, List.find?_cons_of_neg _ h, h]

theorem dictGet_dictSet_self (d : Headers) (k v : String) :
    dictGet (dictSet d k v) k = some v := by
  induction d with
  | nil => simp [dictSet, dictGet_cons]
  | cons p t ih =>
    by_cases h : p.1 == k
    · simp [dictSet, h, dictGet_cons]
    · simp [dictSet, h, dictGet_cons, ih]

theorem dictKeys_cons (p : String × String) (t : Headers) :
    dictKeys (p :: t) = p.1 :: dictKeys t := rfl

theorem dictGet_dictSet_ne (d : Headers) (k v k' : String) (h : k' ≠ k) :
    dictGet (dictSet d k v) k' = dictGet d k' := by
  induction d with
  | nil =>
    rw [dictSet, dictGet_cons]
    rw [if_neg (by simpa using Ne.symm h)]
  | cons p t ih =>
    by_cases hp : p.1 == k
    · have hpk : p.1 = k := by simpa using hp
      rw [dictSet, if_pos hp, dictGet_cons, dictGet_cons, hpk]
      rw [if_neg (by simpa using Ne.symm h), if_neg (by simpa using Ne.symm h)]
    · rw [dictSet, if_neg hp, dictGet_cons, dictGet_cons, ih]

theorem dictKeys_dictSet_of_mem (d : Headers) (k v : String)
    (hk : k ∈ dictKeys d) : dictKeys (dictSet d k v) = dictKeys d := by
  induction d with
  | nil => simp [dictKeys] at hk
  | cons p t ih =>
    by_cases hp : p.1 == k
    · have hpk : p.1 = k := by simpa using hp
      rw [dictSet, if_pos hp, dictKeys_cons, dictKeys_cons, hpk]
    · have hne : p.1 ≠ k := by simpa using hp
      rw [dictKeys_cons] at hk
      rcases List.mem_cons.mp hk with hk | hk
      · exact absurd hk.symm hne
      · rw [dictSet, if_neg hp, dictKeys_cons, dictKeys_cons, ih hk]

theorem dictKeys_dictSet_of_not_mem (d : Headers) (k v : String)
    (hk : k ∉ dictKeys d) : dictKeys (dictSet d k v) = dictKeys d ++ [k] := by
  induction d with
  | nil => rfl
  | cons p t ih =>
    rw [dictKeys_cons] at hk
    have h1 : p.1 ≠ k := fun he => hk (he ▸ List.mem_cons_self _ _)
    have h2 : k ∉ dictKeys t := fun hm => hk (List.mem_cons_of_mem _ hm)
    rw [dictSet, if_neg (by simpa using h1), dictKeys_cons, dictKeys_cons,
      ih h2, List.cons_append]

theorem nodup_dictKeys_dictSet (d : Headers) (k v : String)
    (h : (dictKeys d).Nodup) : (dictKeys (dictSet d k v)).Nodup := by
  by_cases hk : k ∈ dictKeys d
  · rw [dictKeys_dictSet_of_mem d k v hk]; exact h
  · rw [dictKeys_dictSet_of_not_mem d k v hk]
    rw [List.nodup_append]
    exact ⟨h, List.nodup_singleton k, by
      intro a ha hb
      rw [List.mem_singleton] at hb
      exact hk (hb ▸ ha)⟩

theorem mem_dictSet_self (d : Headers) (k v : String) :
    (k, v) ∈ dictSet d k v := by
  induction d with
  | nil => exact List.mem_singleton.mpr rfl
  | cons p t ih =>
    by_cases hp : p.1 == k
    · rw [dictSet, if_pos hp]; exact List.mem_cons_self _ _
    · rw [dictSet, if_neg hp]; exact List.mem_cons_of_mem _ ih

theorem mem_dictSet_of_ne (d : Headers) (k v k' v' : String)
    (hne : k' ≠ k) (hm : (k', v') ∈ d) : (k', v') ∈ dictSet d k v := by
  induction d with
  | nil => simp at hm
  | cons p t ih =>
    rcases List.mem_cons.mp hm with he | hmt
    · have hp : ¬ (p.1 == k) = true := by
        rw [← he]; simpa using hne
      rw [dictSet, if_neg hp, ← he]
      exact List.mem_cons_self _ _
    · by_cases hp : p.1 == k
      · rw [dictSet, if_pos hp]
        exact List.mem_cons_of_mem _ hmt
      · rw [dictSet, if_neg hp]
        exact List.mem_cons_of_mem _ (ih hmt)

theorem dictSet_ne_nil (d : Headers) (k v : String) : dictSet d k v ≠ [] := by
  cases d with
  | nil => simp [dictSet]
  | cons p t =>
    rw [dictSet]
    split <;> simp

theorem dictUpdate_cons (d : Headers) (q : String × String) (e : Headers) :
    dictUpdate d (q :: e) = dictUpdate (dictSet d q.1 q.2) e := rfl

theorem dictUpdate_singleton (d : Headers) (k v : String) :
    dictUpdate d [(k, v)] = dictSet d k v := rfl

theorem dictGet_dictUpdate_not_mem (d e : Headers) (k : String)
    (hk : k ∉ dictKeys e) : dictGet (dictUpdate d e) k = dictGet d k := by
  induction e generalizing d with
  | nil => rfl
  | cons q t ih =>
    rw [dictKeys_cons] at hk
    have h1 : k ≠ q.1 := fun he => hk (he ▸ List.mem_cons_self _ _)
    have h2 : k ∉ dictKeys t := fun hm => hk (List.mem_cons_of_mem _ hm)
    rw [dictUpdate_cons, ih _ h2, dictGet_dictSet_ne _ _ _ _ h1]

theorem dictGet_dictUpdate_of_mem (d e : Headers) (k v : String)
    (hnd : (dictKeys e).Nodup) (hm : (k, v) ∈ e) :
    dictGet (dictUpdate d e) k = some v := by
  induction e generalizing d with
  | nil => simp at hm
  | cons q t ih =>
    rw [dictKeys_cons, List.nodup_cons] at hnd
    rcases List.mem_cons.mp hm with he | hmt
    · have hq : q = (k, v) := he.symm
      subst hq
      rw [dictUpdate_cons, dictGet_dictUpdate_not_mem _ _ _ hnd.1,
        dictGet_dictSet_self]
    · rw [dictUpdate_cons]
      exact ih _ hnd.2 hmt

/-- Python `s.rstrip(c)` for a single strip character: drop every trailing
occurrence of `c`. -/
def pyRstrip (c : Char) (s : String) : String :=
  ⟨(s.data.reverse.dropWhile (fun x => x == c)).reverse⟩

/-- Python `s.lstrip(c)` for a single strip character: drop every leading
occurrence of `c`. -/
def pyLstrip (c : Char) (s : String) : String :=
  ⟨s.data.dropWhile (fun x => x == c)⟩

/-- `AClient._url_builder` (aclient.py lines 89-90):
`self._url_start.rstrip('/') + '/' + url_end.lstrip('/')`. -/
def AClient.url_builder (url_start url_end : String) : String :=
  pyRstrip '/' url_start ++ "/" ++ pyLstrip '/' url_end

/-- The head of `dropWhile p l` does not satisfy `p`. -/
theorem head_dropWhile_not (p : Char → Bool) (l : List Char) :
    ∀ a, (l.dropWhile p).head? = some a → p a = false := by
  induction l with
  | nil => intro a h; simp [List.dropWhile] at h
  | cons c t ih =>
    intro a h
    by_cases hc : p c
    · rw [List.dropWhile_cons_of_pos hc] at h
      exact ih a h
    · rw [List.dropWhile_cons_of_neg hc] at h
      simp only [List.head?_cons, Option.some.injEq] at h
      subst h
      simpa using hc

/-- The string produced by `pyLstrip c` does not start with `c`. -/
theorem pyLstrip_head_ne (c : Char) (s : String) :
    (pyLstrip c s).data.head? ≠ some c := by
  intro h
  have := head_dropWhile_not (fun x => x == c) s.data c h
  simp at this

/-- The string produced by `pyRstrip c` does not end with `c`. -/
theorem pyRstrip_getLast_ne (c : Char) (s : String) :
    (pyRstrip c s).data.getLast? ≠ some c := by
  intro h
  rw [pyRstrip] at h
  rw [List.getLast?_reverse] at h
  have := head_dropWhile_not (fun x => x == c) s.data.reverse c h
  simp at this

/-- A parsed JSON value, the possible output of the Python standard library
call `json.loads`.  `obj []` is the empty dict `\x7b\x7d`. -/
inductive JValue where
  | null : JValue
  | bool (b : Bool) : JValue
  | num (n : Int) : JValue
  | str (s : String) : JValue
  | arr (elems : List JValue) : JValue
  | obj (fields : List (String × JValue)) : JValue

/-- A Python value returned by `AClient._get_content`: a parsed JSON value, a
decoded text string, or the raw response bytes. -/
inductive Content where
  | json (v : JValue) : Content
  | text (s : String) : Content
  | raw (b : List Nat) : Content

/-- `AClient.encoding_default` (aclient.py line 24). -/
def AClient.encoding_default : String := "utf-8"

/-- Python `response.charset or self.encoding_default`: `or` takes the default
when the charset is `None` or the empty (falsy) string. -/
def charsetOrDefault (charset : Option String) : String :=
  match charset with
  | none => AClient.encoding_default
  | some s => if s = "" then AClient.encoding_default else s

/-- `AClient._get_content` (aclient.py lines 48-56).  `jsonLoads` models the
standard library `json.loads` and `byteDecode cs b` models `b.decode(cs)`;
both are external to the repository and passed in as parameters. -/
def AClient.get_content (jsonLoads : String → JValue)
    (byteDecode : String → List Nat → String)
    (content_type : String) (charset : Option String)
    (content : List Nat) : Content :=
  if content_type = "application/json" then
    if content ≠ [] then
      .json (jsonLoads (byteDecode (charsetOrDefault charset) content))
    else
      .json (.obj [])
  else if content_type = "text/html" ∨ content_type = "text/plain" then
    .text (byteDecode (charsetOrDefault charset) content)
  else
    .raw content

/-- `AClient.headers_default` (aclient.py lines 20-23): the class-level default
header dict, a mutable class attribute. -/
def AClient.headers_default : Headers :=
  [("User-Agent",
    "Mozilla/5.0 (Macintosh; Intel Mac OS X 10_10_1) AppleWebKit/537.36 (KHTML, like Gecko) Chrome/39.0.2171.95 Safari/537.36")]

/-- A Python argument value as the `isinstance` checks of aclient.py see it:
`None`, a string, a dict (of strings), or a value of any other type. -/
inductive PyArg where
  | pyNone : PyArg
  | str (s : String) : PyArg
  | dict (d : Headers) : PyArg
  | other : PyArg
deriving DecidableEq

/-- The header-handling part of `AClient.__init__` (aclient.py lines 27-42).
`classDefault` is the value of the class attribute `AClient.headers_default`
when the constructor runs.  The constructor executes
`self._headers = self.headers_default` — an alias of the class attribute, with
no copy — and then, when the `headers` argument is truthy, checks it is a dict
(raising TypeError otherwise) and runs `self._headers.update(headers)`, which
mutates the shared object.  The `.ok` payload is the pair (instance `_headers`,
class attribute `headers_default` after construction); because of the alias
the two are the same object, so an update shows up in both. -/
def AClient.init (classDefault : Headers) (headers : PyArg) :
    Except String (Headers × Headers) :=
  match headers with
  | .pyNone => .ok (classDefault, classDefault)
  | .str s =>
    if s = "" then .ok (classDefault, classDefault)
    else .error "The parameter \x22headers\x22 must be a dict"
  | .dict h =>
    if h = [] then .ok (classDefault, classDefault)
    else .ok (dictUpdate classDefault h, dictUpdate classDefault h)
  | .other => .error "The parameter \x22headers\x22 must be a dict"

/-- An HTTP response as `_request` reads it: status code, content type,
declared charset, and the body bytes returned by `response.read()`. -/
structure HttpResponse where
  status : Nat
  content_type : String
  charset : Option String
  body : List Nat

/-- The outcome of one issue of the session call inside `_request`: a
response, an `aiohttp.ClientError`, or any other exception. -/
inductive TransportOutcome where
  | ok (resp : HttpResponse) : TransportOutcome
  | clientError (msg : String) : TransportOutcome
  | exn (msg : String) : TransportOutcome

/-- The value a queued `_request` coroutine resolves to: decoded content, or
the Python dict `\x7b'error': msg\x7d`.  `_request` catches `aiohttp.ClientError` and
every other `Exception`, so it always resolves to such a value and never
raises into the event loop. -/
inductive Result where
  | content (v : Content) : Result
  | errorDict (msg : String) : Result

/-- The observable trace of one run of `AClient._request`: the `session_header`
dict passed to the session call, the value the coroutine resolves to, and how
many times the session call was issued. -/
structure RequestTrace where
  sentHeaders : Headers
  result : Result
  attempts : Nat

/-- `AClient._request` (aclient.py lines 58-80).  `selfHeaders` is the
instance's `_headers`; `session_header` starts as a deep copy of it, so the
per-call update never touches `selfHeaders`, and the `if headers:` guard skips
the update for `None` and for an empty (falsy) dict.  `transport n` gives the
outcome of the n-th issue of the session call; the code issues it exactly
once — there is no retry loop.  A non-2xx status (strictly outside
[200, 299]) is logged and turned into the error dict; a 2xx response's body
is passed to `_get_content`; both exception handlers log and return the error
dict with the exception text. -/
def AClient.request (selfHeaders : Headers) (headers : Option Headers)
    (jsonLoads : String → JValue) (byteDecode : String → List Nat → String)
    (transport : Nat → TransportOutcome) : RequestTrace :=
  let session_header :=
    match headers with
    | none => selfHeaders
    | some h => if h = [] then selfHeaders else dictUpdate selfHeaders h
  { sentHeaders := session_header
    attempts := 1
    result :=
      match transport 1 with
      | .ok resp =>
        if resp.status > 299 ∨ resp.status < 200 then
          .errorDict ("Response status " ++ toString resp.status)
        else
          .content (AClient.get_content jsonLoads byteDecode
            resp.content_type resp.charset resp.body)
      | .clientError m => .errorDict m
      | .exn m => .errorDict m }

/-- A queued unit of work: the argument values the deferred `_request` call at
aclient.py line 113 was created with.  `method` is the verb previously stored
in `self._method` by `__getattr__`. -/
structure TaskSpec where
  method : String
  url : String
  params : Headers
  headers : Option Headers
deriving DecidableEq

/-- What a successful `_add_task` call leaves behind: the new task queue and
the caller's `headers` argument after the call.  Python passes the dict by
reference and `headers.update(header_token)` mutates it, so the caller's
object can differ from what was passed in. -/
structure AddTaskOk where
  tasks : List TaskSpec
  callerHeaders : PyArg
deriving DecidableEq

/-- The tail of `_add_task` (aclient.py lines 104-114) once the four
`isinstance` checks have passed: `u` is the path, `paramsVal` the params dict
(already defaulted to the empty dict for `None`), `headersVal` the headers
dict or `none` for `None`, `tokenVal` the token or `none` for `None`.  The
`if token:` guard is Python truthiness, so a `None` or empty token injects
nothing, while a non-empty token puts `Authorization: Bearer <token>` into
the per-call headers — creating the dict when `headers` is `None` and
otherwise updating the caller's dict in place (so `callerHeaders`, the
caller's argument object after the call, carries the injected key). -/
def AClient.add_task_tail (method : String) (url_start : String)
    (tasks : List TaskSpec) (u : String) (paramsVal : Headers)
    (headersVal : Option Headers) (tokenVal : Option String) :
    Except String AddTaskOk :=
  let headersFinal :=
    match tokenVal with
    | some t =>
      if t = "" then headersVal
      else
        match headersVal with
        | none => some [("Authorization", "Bearer " ++ t)]
        | some h => some (dictUpdate h [("Authorization", "Bearer " ++ t)])
    | none => headersVal
  Except.ok
    { tasks := tasks ++ [{ method := method
                           url := AClient.url_builder url_start u
                           params := paramsVal
                           headers := headersFinal }]
      callerHeaders :=
        match headersVal, headersFinal with
        | some _, some h => .dict h
        | some d, none => .dict d
        | none, _ => .pyNone }

/-- The token check of `_add_task` (aclient.py lines 99-100). -/
def AClient.add_task_check_token (method : String) (url_start : String)
    (tasks : List TaskSpec) (u : String) (paramsVal : Headers)
    (headersVal : Option Headers) (token : PyArg) :
    Except String AddTaskOk :=
  match token with
  | .pyNone => AClient.add_task_tail method url_start tasks u paramsVal
      headersVal none
  | .str t => AClient.add_task_tail method url_start tasks u paramsVal
      headersVal (some t)
  | _ => .error "The arg \x22token\x22 must be a str"

/-- The headers check of `_add_task` (aclient.py lines 97-98). -/
def AClient.add_task_check_headers (method : String) (url_start : String)
    (tasks : List TaskSpec) (u : String) (paramsVal : Headers)
    (headers token : PyArg) : Except String AddTaskOk :=
  match headers with
  | .pyNone => AClient.add_task_check_token method url_start tasks u paramsVal
      none token
  | .dict d => AClient.add_task_check_token method url_start tasks u paramsVal
      (some d) token
  | _ => .error "The arg \x22headers\x22 must be a dict"

/-- The params check of `_add_task` (aclient.py lines 95-96 and 101-102):
`params` must be `None` (defaulted to the empty dict) or a dict. -/
def AClient.add_task_check_params (method : String) (url_start : String)
    (tasks : List TaskSpec) (u : String) (params headers token : PyArg) :
    Except String AddTaskOk :=
  match params with
  | .pyNone => AClient.add_task_check_headers method url_start tasks u []
      headers token
  | .dict d => AClient.add_task_check_headers method url_start tasks u d
      headers token
  | _ => .error "The arg \x22params\x22 must be a dict"

/-- `AClient._add_task` (aclient.py lines 92-114).  The four `isinstance`
checks run in order — url, params, headers, token — raising `TypeError` (the
`Except.error` branch, in which no task is appended) at the first violated
one; otherwise the task with the joined URL and the token-injected headers is
appended to the queue. -/
def AClient.add_task (method : String) (url_start : String)
    (tasks : List TaskSpec) (url params headers token : PyArg) :
    Except String AddTaskOk :=
  match url with
  | .str u => AClient.add_task_check_params method url_start tasks u params
      headers token
  | _ => .error "The arg \x22url\x22 must be a str"

/-- One completion event inside `asyncio.gather`: when the task at index `i`
finishes, its value is stored in the results slot `i` — slots are addressed by
the task's original index, not by arrival time. -/
def gatherStep (tasks : List Result) (slots : List (Option Result)) (i : Nat) :
    List (Option Result) :=
  match tasks[i]? with
  | some v => slots.set i (some v)
  | none => slots

/-- `asyncio.gather(*tasks).result()` with the underlying tasks completing in
the order given by `order`: every completion stores its value at the task's
original index, and the gathered result is read out slot by slot in index
order. -/
def runGather (tasks : List Result) (order : List Nat) : List Result :=
  (order.foldl (gatherStep tasks) (List.replicate tasks.length none)).filterMap id

/-- The Python value `result()` hands to the caller when nothing was
swallowed: the bare result of a singleton queue, or the gathered list. -/
inductive PyOut where
  | single (r : Result) : PyOut
  | batch (rs : List Result) : PyOut

/-- The sequence of per-call results carried by a `result()` return value. -/
def outValues : PyOut → List Result
  | .single r => [r]
  | .batch rs => rs

/-- `AClient.result` (aclient.py lines 116-129), given the queued tasks (each
represented by the value its coroutine resolves to — `_request` catches every
exception, so queued coroutines never raise) and the order `order` in which
the event loop completes them.  Returns the value handed to the caller
(`none` is Python's `None`, the return value after the `except` branch
swallowed an exception), the task queue after the call (the `finally` block
always clears it), and the messages logged by the `except` branch.  The
function itself never raises: every exception, including the empty-queue
`ValueError` of line 125, is caught by its own handler at line 126. -/
def AClient.result (tasks : List Result) (order : List Nat) :
    Option PyOut × List Result × List String :=
  match tasks with
  | [] => (none, [], ["The task queue must not be empty"])
  | [t] => (some (.single t), [], [])
  | t1 :: t2 :: rest => (some (.batch (runGather (t1 :: t2 :: rest) order)), [], [])

theorem length_gatherStep (tasks : List Result) (slots : List (Option Result))
    (i : Nat) : (gatherStep tasks slots i).length = slots.length := by
  rw [gatherStep]
  cases tasks[i]? <;> simp

theorem getElem?_foldl_gatherStep (tasks : List Result) (order : List Nat)
    (slots : List (Option Result)) (hlen : slots.length = tasks.length)
    (j : Nat) :
    (order.foldl (gatherStep tasks) slots)[j]? =
      if j ∈ order ∧ j < tasks.length then tasks[j]?.map some
      else slots[j]? := by
  induction order generalizing slots with
  | nil => simp
  | cons i rest ih =>
    rw [List.foldl_cons, ih _ (by rw [length_gatherStep]; exact hlen)]
    by_cases hr : j ∈ rest ∧ j < tasks.length
    · rw [if_pos hr, if_pos ⟨List.mem_cons_of_mem _ hr.1, hr.2⟩]
    · rw [if_neg hr]
      by_cases hij : i = j
      · subst hij
        by_cases hi : i < tasks.length
        · rw [if_pos ⟨List.mem_cons_self _ _, hi⟩]
          have hj : i < slots.length := by rw [hlen]; exact hi
          simp [gatherStep, List.getElem?_eq_getElem hi,
            List.getElem?_set_self hj]
        · rw [if_neg (fun hc => hi hc.2)]
          have hn : tasks[i]? = none := List.getElem?_eq_none (le_of_not_lt hi)
          simp [gatherStep, hn]
      · have hiff : j ∈ i :: rest ∧ j < tasks.length ↔
            j ∈ rest ∧ j < tasks.length := by
          constructor
          · rintro ⟨hm, hl⟩
            rcases List.mem_cons.mp hm with he | hm2
            · exact absurd he.symm hij
            · exact ⟨hm2, hl⟩
          · rintro ⟨hm, hl⟩
            exact ⟨List.mem_cons_of_mem _ hm, hl⟩
        rw [if_neg (fun hc => hr (hiff.mp hc))]
        rw [gatherStep]
        cases tasks[i]? with
        | none => rfl
        | some v => exact List.getElem?_set_ne hij

/-- Whatever order the underlying tasks complete in, the gathered output is
the task values in their original index order. -/
theorem runGather_perm (tasks : List Result) (order : List Nat)
    (hperm : order.Perm (List.range tasks.length)) :
    runGather tasks order = tasks := by
  rw [runGather]
  have hfill : order.foldl (gatherStep tasks) (List.replicate tasks.length none)
      = tasks.map some := by
    apply List.ext_getElem?
    intro j
    rw [getElem?_foldl_gatherStep _ _ _ (by simp) j]
    by_cases hj : j < tasks.length
    · rw [if_pos ⟨hperm.mem_iff.mpr (List.mem_range.mpr hj), hj⟩]
      simp
    · rw [if_neg (fun hc => hj hc.2)]
      have h1 : tasks.length ≤ j := le_of_not_lt hj
      rw [List.getElem?_eq_none (by simpa using h1),
        List.getElem?_eq_none (by simpa using h1)]
  rw [hfill, List.filterMap_map]
  simp

end AClientModel

namespace AClientClaims

open AClientModel

/-- C8: for every base URL and path, the target URL is the base with all
trailing slashes stripped, then exactly one slash, then the path with all
leading slashes stripped — so the stripped base never ends in a slash and the
stripped path never starts with one, leaving exactly one slash at the join
point; in particular base "http://x/api/" with path "/foo/" yields
"http://x/api/foo/". -/
theorem c8_url_join (base path : String) :
    AClient.url_builder base path =
      pyRstrip '/' base ++ "/" ++ pyLstrip '/' path ∧
    (pyRstrip '/' base).data.getLast? ≠ some '/' ∧
    (pyLstrip '/' path).data.head? ≠ some '/' ∧
    AClient.url_builder "http://x/api/" "/foo/" = "http://x/api/foo/" := by
  refine ⟨rfl, pyRstrip_getLast_ne '/' base, pyLstrip_head_ne '/' path, ?_⟩
  rfl

/-- C1: for every queue of N ≥ 1 tasks and every order in which the
underlying requests complete, `result()` hands the caller exactly the N
per-call results, one per enqueued call, in enqueue order (the bare result
for a singleton queue, the gathered list otherwise), clears the queue and
logs nothing. -/
theorem c1_dispatch_order (tasks : List Result) (order : List Nat)
    (hne : 1 ≤ tasks.length)
    (hperm : order.Perm (List.range tasks.length)) :
    ∃ out, AClient.result tasks order = (some out, [], []) ∧
      outValues out = tasks := by
  rcases tasks with _ | ⟨t1, _ | ⟨t2, rest⟩⟩
  · simp at hne
  · exact ⟨.single t1, rfl, rfl⟩
  · exact ⟨.batch (runGather (t1 :: t2 :: rest) order), rfl,
      runGather_perm _ _ hperm⟩

/-- C1 witness: a three-task queue whose requests complete in the order
2, 0, 1 still yields the three results in enqueue order. -/
theorem c1_dispatch_order_witness :
    AClient.result [Result.content (.text "a"), Result.errorDict "b",
        Result.content (.raw [7])] [2, 0, 1] =
      (some (PyOut.batch [Result.content (.text "a"), Result.errorDict "b",
        Result.content (.raw [7])]), [], []) := by
  obtain ⟨out, h1, h2⟩ := c1_dispatch_order
    [Result.content (.text "a"), Result.errorDict "b",
      Result.content (.raw [7])] [2, 0, 1] (by decide) (by decide)
  cases out with
  | single r => simp [outValues] at h2
  | batch rs =>
    simp only [outValues] at h2
    rw [h2] at h1
    exact h1

/-- C4 counterexample: dispatching an empty queue does not surface the
empty-queue error to the caller.  The `ValueError` raised at aclient.py line
125 is caught by `result()`'s own handler at line 126, which only logs it
(third component), and the caller receives Python `None` (first component
`none`); `result()` always returns normally, so no error reaches the
caller. -/
theorem c4_counterexample :
    AClient.result [] [] =
      (none, [], ["The task queue must not be empty"]) := rfl

/-- C4 amended: dispatching with an empty queue raises the empty-queue
`ValueError` internally, which `result()` itself catches and logs, and the
caller receives `None` (no exception propagates, no hang); after any dispatch
the queue is empty, so an immediately following dispatch with no new enqueues
again logs the empty-queue error and returns `None`. -/
theorem c4_empty_queue (tasks : List Result) (order order2 : List Nat) :
    AClient.result [] order =
      (none, [], ["The task queue must not be empty"]) ∧
    (AClient.result tasks order).2.1 = [] ∧
    AClient.result (AClient.result tasks order).2.1 order2 =
      (none, [], ["The task queue must not be empty"]) := by
  refine ⟨rfl, ?_, ?_⟩ <;> rcases tasks with _ | ⟨t1, _ | ⟨t2, rest⟩⟩ <;> rfl

/-- C5 counterexample: the claim requires the path to be a non-empty string,
but `_add_task` only checks `isinstance(url, str)`: enqueueing with the empty
path succeeds and appends a task (with joined URL "http://x/api/") instead of
raising a validation error. -/
theorem c5_counterexample :
    AClient.add_task "get" "http://x/api" [] (.str "") .pyNone .pyNone
      .pyNone =
      .ok { tasks := [{ method := "get", url := "http://x/api/", params := [],
                        headers := none }],
            callerHeaders := .pyNone } := rfl

/-- C5 amended: `_add_task` validates the argument types synchronously at
enqueue time — the path must be a string (emptiness is not checked), params
and headers when present must be dicts, the token when present a string — and
any violation raises a TypeError to the caller without enqueueing a task. -/
theorem c5_validation (method url_start : String) (tasks : List TaskSpec)
    (url params headers token : PyArg) :
    (AClient.add_task method url_start tasks url params headers token).isOk =
      true ↔
      (∃ s, url = .str s) ∧
      (params = .pyNone ∨ ∃ d, params = .dict d) ∧
      (headers = .pyNone ∨ ∃ d, headers = .dict d) ∧
      (token = .pyNone ∨ ∃ s, token = .str s) := by
  cases url <;> cases params <;> cases headers <;> cases token <;>
    simp [AClient.add_task, AClient.add_task_check_params,
      AClient.add_task_check_headers, AClient.add_task_check_token,
      AClient.add_task_tail, Except.isOk, Except.toBool]

/-- C7: the decoder maps (content type, charset, body bytes) as the claim
states: application/json with non-empty body parses the JSON text, with empty
body yields the empty mapping; text/html and text/plain decode the body with
the declared charset, defaulting to utf-8 when none is declared; every other
content type yields the raw bytes unmodified. -/
theorem c7_decoder (jsonLoads : String → JValue)
    (byteDecode : String → List Nat → String)
    (charset : Option String) (body : List Nat) :
    (body ≠ [] →
      AClient.get_content jsonLoads byteDecode "application/json" charset body =
        .json (jsonLoads (byteDecode (charsetOrDefault charset) body))) ∧
    AClient.get_content jsonLoads byteDecode "application/json" charset [] =
      .json (.obj []) ∧
    (∀ ct, ct = "text/html" ∨ ct = "text/plain" →
      AClient.get_content jsonLoads byteDecode ct charset body =
        .text (byteDecode (charsetOrDefault charset) body)) ∧
    charsetOrDefault none = "utf-8" ∧
    (∀ cs, cs ≠ "" → charsetOrDefault (some cs) = cs) ∧
    (∀ ct, ct ≠ "application/json" → ct ≠ "text/html" → ct ≠ "text/plain" →
      AClient.get_content jsonLoads byteDecode ct charset body = .raw body) := by
  refine ⟨fun hb => ?_, by simp [AClient.get_content], fun ct hct => ?_,
    rfl, fun cs hcs => ?_, fun ct h1 h2 h3 => ?_⟩
  · simp [AClient.get_content, hb]
  · rcases hct with h | h <;> subst h <;> simp [AClient.get_content]
  · simp [charsetOrDefault, hcs]
  · simp [AClient.get_content, h1, h2, h3]

/-- A stand-in for `json.loads`, used only to instantiate the decoder claim on
concrete inputs. -/
def jsonLoadsConst : String → JValue := fun _ => .obj [("a", .num 1)]

/-- A stand-in for `bytes.decode`, reading each byte as a character code, used
only to instantiate the decoder claim on concrete inputs. -/
def byteDecodeAscii : String → List Nat → String :=
  fun _ b => String.mk (b.map Char.ofNat)

/-- C7 witness: the decoder evaluated on concrete JSON, empty-JSON, text and
binary responses. -/
theorem c7_decoder_witness :
    AClient.get_content jsonLoadsConst byteDecodeAscii "application/json" none
      [123, 34, 97, 34, 58, 49, 125] = .json (.obj [("a", .num 1)]) ∧
    AClient.get_content jsonLoadsConst byteDecodeAscii "application/json" none
      [] = .json (.obj []) ∧
    AClient.get_content jsonLoadsConst byteDecodeAscii "text/plain"
      (some "utf-8") [104, 105] = .text "hi" ∧
    AClient.get_content jsonLoadsConst byteDecodeAscii "image/png" none
      [0, 1] = .raw [0, 1] := by
  refine ⟨?_, ?_, ?_, ?_⟩
  · exact ((c7_decoder jsonLoadsConst byteDecodeAscii none
      [123, 34, 97, 34, 58, 49, 125]).1 (by decide)).trans rfl
  · exact (c7_decoder jsonLoadsConst byteDecodeAscii none []).2.1
  · exact ((c7_decoder jsonLoadsConst byteDecodeAscii (some "utf-8")
      [104, 105]).2.2.1 "text/plain" (Or.inr rfl)).trans rfl
  · exact (c7_decoder jsonLoadsConst byteDecodeAscii none
      [0, 1]).2.2.2.2.2 "image/png" (by decide) (by decide) (by decide)

/-- A transport schedule that fails with a connection error on the first
attempt and would return a clean 200 text response on every later attempt. -/
def transientFailure : Nat → TransportOutcome :=
  fun n =>
    if n = 1 then .clientError "Cannot connect to host"
    else .ok { status := 200, content_type := "text/plain",
               charset := some "utf-8", body := [111, 107] }

/-- C2 counterexample: against a transport that fails once and would succeed
from the second attempt on, the executor issues the session call exactly once
(second conjunct) and returns the error Result with the exception text (first
conjunct), even though a second attempt would have returned a 200 response
(third conjunct).  `_request` has no retry loop and no delay, so the claimed
"up to 3 attempts with 0.1 delay, error only after exhausting all retries"
is false: the error Result comes after a single attempt. -/
theorem c2_counterexample :
    (AClient.request AClient.headers_default none jsonLoadsConst
      byteDecodeAscii transientFailure).result =
        .errorDict "Cannot connect to host" ∧
    (AClient.request AClient.headers_default none jsonLoadsConst
      byteDecodeAscii transientFailure).attempts = 1 ∧
    transientFailure 2 =
      .ok { status := 200, content_type := "text/plain",
            charset := some "utf-8", body := [111, 107] } :=
  ⟨rfl, rfl, rfl⟩

/-- C2 amended: for every call the executor issues the underlying request
exactly once — there is no retry and no inter-attempt delay — and when that
single attempt fails at transport level (`aiohttp.ClientError`) or with any
other exception, it returns the error Result with the exception text instead
of propagating the fault to the dispatcher. -/
theorem c2_single_attempt (selfHeaders : Headers) (headers : Option Headers)
    (jsonLoads : String → JValue) (byteDecode : String → List Nat → String)
    (transport : Nat → TransportOutcome) :
    (AClient.request selfHeaders headers jsonLoads byteDecode
      transport).attempts = 1 ∧
    (∀ m, transport 1 = .clientError m →
      (AClient.request selfHeaders headers jsonLoads byteDecode
        transport).result = .errorDict m) ∧
    (∀ m, transport 1 = .exn m →
      (AClient.request selfHeaders headers jsonLoads byteDecode
        transport).result = .errorDict m) := by
  refine ⟨rfl, fun m hm => ?_, fun m hm => ?_⟩ <;>
    simp [AClient.request, hm]

/-- C2 amended witness: the single-attempt executor evaluated against the
once-failing transport. -/
theorem c2_single_attempt_witness :
    (AClient.request AClient.headers_default none jsonLoadsConst
      byteDecodeAscii transientFailure).attempts = 1 ∧
    (AClient.request AClient.headers_default none jsonLoadsConst
      byteDecodeAscii transientFailure).result =
        .errorDict "Cannot connect to host" :=
  ⟨(c2_single_attempt AClient.headers_default none jsonLoadsConst
      byteDecodeAscii transientFailure).1,
    (c2_single_attempt AClient.headers_default none jsonLoadsConst
      byteDecodeAscii transientFailure).2.1 "Cannot connect to host" rfl⟩

/-- C3: a response whose status is strictly outside [200, 299] yields the
error Result "Response status <code>" — returned as a value, never raised:
the executor's type always returns a Result — while a status inside
[200, 299] passes the response body to the decoder. -/
theorem c3_status_policy (selfHeaders : Headers) (headers : Option Headers)
    (jsonLoads : String → JValue) (byteDecode : String → List Nat → String)
    (resp : HttpResponse) :
    (resp.status < 200 ∨ resp.status > 299 →
      (AClient.request selfHeaders headers jsonLoads byteDecode
        (fun _ => .ok resp)).result =
        .errorDict ("Response status " ++ toString resp.status)) ∧
    (200 ≤ resp.status ∧ resp.status ≤ 299 →
      (AClient.request selfHeaders headers jsonLoads byteDecode
        (fun _ => .ok resp)).result =
        .content (AClient.get_content jsonLoads byteDecode resp.content_type
          resp.charset resp.body)) := by
  have hreq : (AClient.request selfHeaders headers jsonLoads byteDecode
      (fun _ => .ok resp)).result =
      if resp.status > 299 ∨ resp.status < 200 then
        .errorDict ("Response status " ++ toString resp.status)
      else
        .content (AClient.get_content jsonLoads byteDecode resp.content_type
          resp.charset resp.body) := rfl
  constructor
  · intro h
    rw [hreq, if_pos (by omega)]
  · intro h
    rw [hreq, if_neg (by omega)]

/-- A plain-text 200-family response used to instantiate the status-policy
claim at the boundary status codes. -/
def respPlain (status : Nat) : HttpResponse :=
  { status := status, content_type := "text/plain", charset := some "utf-8",
    body := [104, 105] }

/-- C3 witness: boundary statuses 199 and 300 (and 404) yield the error
Result, while 200 and 299 pass the body to the decoder. -/
theorem c3_status_policy_witness :
    (AClient.request [] none jsonLoadsConst byteDecodeAscii
      (fun _ => .ok (respPlain 199))).result =
        .errorDict "Response status 199" ∧
    (AClient.request [] none jsonLoadsConst byteDecodeAscii
      (fun _ => .ok (respPlain 300))).result =
        .errorDict "Response status 300" ∧
    (AClient.request [] none jsonLoadsConst byteDecodeAscii
      (fun _ => .ok (respPlain 404))).result =
        .errorDict "Response status 404" ∧
    (AClient.request [] none jsonLoadsConst byteDecodeAscii
      (fun _ => .ok (respPlain 200))).result = .content (.text "hi") ∧
    (AClient.request [] none jsonLoadsConst byteDecodeAscii
      (fun _ => .ok (respPlain 299))).result = .content (.text "hi") := by
  refine ⟨?_, ?_, ?_, ?_, ?_⟩
  · exact ((c3_status_policy [] none jsonLoadsConst byteDecodeAscii
      (respPlain 199)).1 (by left; decide)).trans rfl
  · exact ((c3_status_policy [] none jsonLoadsConst byteDecodeAscii
      (respPlain 300)).1 (by right; decide)).trans rfl
  · exact ((c3_status_policy [] none jsonLoadsConst byteDecodeAscii
      (respPlain 404)).1 (by right; decide)).trans rfl
  · exact ((c3_status_policy [] none jsonLoadsConst byteDecodeAscii
      (respPlain 200)).2 (by constructor <;> decide)).trans rfl
  · exact ((c3_status_policy [] none jsonLoadsConst byteDecodeAscii
      (respPlain 299)).2 (by constructor <;> decide)).trans rfl

/-- C6: enqueueing with a given token `t` (non-empty: Python truthiness,
`if token:`, is how the code tests that a token was given) and per-call
headers `h` appends a task whose headers are `h` with
`Authorization: Bearer t` set in place; when that task's request executes,
the outgoing `session_header` dict carries `Authorization: Bearer t`, and
every other key/value pair of the supplied headers appears unchanged in it
(per-call headers are merged over the defaults, override winning).  `hnd` is
the representation invariant of a real Python dict: pairwise distinct
keys. -/
theorem c6_bearer_header (method url_start u : String)
    (tasks : List TaskSpec) (selfHeaders h : Headers) (t : String)
    (jsonLoads : String → JValue) (byteDecode : String → List Nat → String)
    (transport : Nat → TransportOutcome)
    (ht : t ≠ "") (hnd : (dictKeys h).Nodup) :
    AClient.add_task method url_start tasks (.str u) .pyNone (.dict h)
        (.str t) =
      .ok { tasks := tasks ++
              [{ method := method
                 url := AClient.url_builder url_start u
                 params := []
                 headers := some (dictSet h "Authorization"
                   ("Bearer " ++ t)) }]
            callerHeaders := .dict (dictSet h "Authorization"
              ("Bearer " ++ t)) } ∧
    dictGet (AClient.request selfHeaders
        (some (dictSet h "Authorization" ("Bearer " ++ t))) jsonLoads
        byteDecode transport).sentHeaders "Authorization" =
      some ("Bearer " ++ t) ∧
    ∀ k v, (k, v) ∈ h → k ≠ "Authorization" →
      dictGet (AClient.request selfHeaders
        (some (dictSet h "Authorization" ("Bearer " ++ t))) jsonLoads
        byteDecode transport).sentHeaders k = some v := by
  have hsent : (AClient.request selfHeaders
      (some (dictSet h "Authorization" ("Bearer " ++ t))) jsonLoads
      byteDecode transport).sentHeaders =
      dictUpdate selfHeaders (dictSet h "Authorization" ("Bearer " ++ t)) := by
    simp [AClient.request, dictSet_ne_nil]
  refine ⟨?_, ?_, ?_⟩
  · simp [AClient.add_task, AClient.add_task_check_params,
      AClient.add_task_check_headers, AClient.add_task_check_token,
      AClient.add_task_tail, ht, dictUpdate_singleton]
  · rw [hsent]
    exact dictGet_dictUpdate_of_mem _ _ _ _
      (nodup_dictKeys_dictSet h "Authorization" ("Bearer " ++ t) hnd)
      (mem_dictSet_self h "Authorization" ("Bearer " ++ t))
  · intro k v hm hk
    rw [hsent]
    exact dictGet_dictUpdate_of_mem _ _ _ _
      (nodup_dictKeys_dictSet h "Authorization" ("Bearer " ++ t) hnd)
      (mem_dictSet_of_ne h "Authorization" ("Bearer " ++ t) k v hk hm)

/-- C6 witness: token "abc" with one explicit custom header — the sent
headers carry the bearer header and keep the custom pair. -/
theorem c6_bearer_header_witness :
    dictGet (AClient.request AClient.headers_default
        (some (dictSet [("X-Custom", "1")] "Authorization" ("Bearer " ++ "abc")))
        jsonLoadsConst byteDecodeAscii transientFailure).sentHeaders
      "Authorization" = some ("Bearer " ++ "abc") ∧
    dictGet (AClient.request AClient.headers_default
        (some (dictSet [("X-Custom", "1")] "Authorization" ("Bearer " ++ "abc")))
        jsonLoadsConst byteDecodeAscii transientFailure).sentHeaders
      "X-Custom" = some "1" := by
  have hth := c6_bearer_header "get" "http://x" "p" [] AClient.headers_default
    [("X-Custom", "1")] "abc" jsonLoadsConst byteDecodeAscii transientFailure
    (by decide) (by decide)
  exact ⟨hth.2.1, hth.2.2 "X-Custom" "1" (by decide) (by decide)⟩

/-- C9 (code bug): the constructor does not copy the class-level default
headers.  `self._headers = self.headers_default` aliases the class attribute
and `self._headers.update(headers)` then mutates the shared dict, so after
constructing a client with the extra header X-Extra, the instance headers
(first component) and the class attribute `headers_default` (second
component) are the same updated dict — and it differs from the original
default: the class-level default header mapping has changed and every later
instance inherits the leaked header.  This contradicts the claim, which
states the defensive-copy requirement the spec itself demands. -/
theorem c9_default_headers_leak :
    AClient.init AClient.headers_default (.dict [("X-Extra", "v")]) =
      .ok (AClient.headers_default ++ [("X-Extra", "v")],
        AClient.headers_default ++ [("X-Extra", "v")]) ∧
    AClient.headers_default ++ [("X-Extra", "v")] ≠
      AClient.headers_default := by
  constructor
  · rfl
  · simp [AClient.headers_default]

/-- C10: when the caller supplies both a headers dict and a given (non-empty,
Python truthiness) token, `_add_task` mutates the caller's dict in place —
no copy is made before the bearer injection — so after the call the caller's
object is the original dict with the Authorization key set to
`Bearer <token>`, and in particular it now contains the Authorization
key. -/
theorem c10_caller_headers_mutated (method url_start u : String)
    (tasks : List TaskSpec) (h : Headers) (t : String) (ht : t ≠ "") :
    ∃ tk, AClient.add_task method url_start tasks (.str u) .pyNone (.dict h)
        (.str t) = .ok tk ∧
      tk.callerHeaders = .dict (dictSet h "Authorization" ("Bearer " ++ t)) ∧
      dictGet (dictSet h "Authorization" ("Bearer " ++ t)) "Authorization" =
        some ("Bearer " ++ t) := by
  refine ⟨{ tasks := tasks ++
              [{ method := method
                 url := AClient.url_builder url_start u
                 params := []
                 headers := some (dictSet h "Authorization"
                   ("Bearer " ++ t)) }]
            callerHeaders := .dict (dictSet h "Authorization"
              ("Bearer " ++ t)) }, ?_, rfl,
    dictGet_dictSet_self h "Authorization" ("Bearer " ++ t)⟩
  simp [AClient.add_task, AClient.add_task_check_params,
    AClient.add_task_check_headers, AClient.add_task_check_token,
    AClient.add_task_tail, ht, dictUpdate_singleton]

/-- C10 witness: enqueueing with an Accept header and token "abc" succeeds
and leaves the caller's dict holding the Authorization key. -/
theorem c10_caller_headers_mutated_witness :
    (AClient.add_task "get" "http://x" [] (.str "p") .pyNone
      (.dict [("Accept", "application/json")]) (.str "abc")).isOk = true ∧
    dictGet (dictSet [("Accept", "application/json")] "Authorization"
      ("Bearer " ++ "abc")) "Authorization" = some ("Bearer " ++ "abc") := by
  obtain ⟨tk, h1, h2, h3⟩ := c10_caller_headers_mutated "get" "http://x" "p"
    [] [("Accept", "application/json")] "abc" (by decide)
  refine ⟨?_, h3⟩
  rw [h1]
  rfl

end AClientClaims
